import Mathlib

/-!
# Verification of the secure-core-backend relay/lifecycle core

A shallow embedding of the repository's JavaScript source into Lean 4.

Conventions used throughout:
* A Redis string store is modelled as a function `String → Option α`; `setKey`
  writes one key.  Keys keep the source layout (`drop:{hash}`, `file:{room}:{id}`);
  room-scoped structures (`room:{h}`, `room:{h}:members`, `room:{h}:messages`)
  are indexed by the room hash directly, the prefix being a constant decoration.
* Timestamps are milliseconds as `Nat` (JS `Date.now()` / luxon `DateTime`).
* JS "truthiness" of a request-body string field is modelled by `≠ ""`
  (a missing field and the empty string behave identically in every guard
  of the source, which only ever tests `!field`).
* `Buffer.from(s, 'base64')` is modelled by `base64Decode`, Node's lenient
  decoder: characters outside the base64 alphabet are skipped and the
  remaining 6-bit groups are packed into bytes.
* Asynchronous fire-and-forget blocks of the source are applied in program
  order, which is their effect under the single-threaded sequential
  execution the claims address.
-/

namespace SecureCore

/-- Write a single key of a keyed store (Redis `SET`/`DEL` on one key). -/
def setKey {α : Type} (st : String → Option α) (k : String) (v : Option α) :
    String → Option α :=
  fun q => if q = k then v else st q

/-- Write a single key of a totally-valued keyed store. -/
def setVal {α : Type} (st : String → α) (k : String) (v : α) : String → α :=
  fun q => if q = k then v else st q

@[simp] theorem setKey_same {α : Type} (st : String → Option α) (k : String) (v : Option α) :
    setKey st k v k = v := by simp [setKey]

@[simp] theorem setKey_other {α : Type} (st : String → Option α) (k q : String) (v : Option α)
    (h : q ≠ k) : setKey st k v q = st q := by simp [setKey, h]

@[simp] theorem setVal_same {α : Type} (st : String → α) (k : String) (v : α) :
    setVal st k v k = v := by simp [setVal]

/-! ## Base64 (Node `Buffer.from(_, 'base64')` and `buf.toString('base64')`) -/

/-- Value of one base64 alphabet character, `none` for characters Node skips. -/
def b64Val (c : Char) : Option Nat :=
  if 'A' ≤ c ∧ c ≤ 'Z' then some (c.toNat - 65)
  else if 'a' ≤ c ∧ c ≤ 'z' then some (c.toNat - 97 + 26)
  else if '0' ≤ c ∧ c ≤ '9' then some (c.toNat - 48 + 52)
  else if c = '+' then some 62
  else if c = '/' then some 63
  else none

/-- Pack a list of 6-bit values into bytes (3 bytes per full group of 4). -/
def b64Pack : List Nat → List Nat
  | a :: b :: c :: d :: rest =>
      (a * 4 + b / 16) :: ((b % 16) * 16 + c / 4) :: ((c % 4) * 64 + d) :: b64Pack rest
  | [a, b] => [a * 4 + b / 16]
  | [a, b, c] => [a * 4 + b / 16, (b % 16) * 16 + c / 4]
  | _ => []

/-- Node's lenient base64 decode: skip non-alphabet characters, pack the rest. -/
def base64Decode (s : String) : List Nat :=
  b64Pack (s.data.filterMap b64Val)

def b64Alphabet : List Char :=
  "ABCDEFGHIJKLMNOPQRSTUVWXYZabcdefghijklmnopqrstuvwxyz0123456789+/".data

def b64Char (n : Nat) : Char := b64Alphabet.getD n 'A'

/-- Canonical (padded) base64 encoding of a byte list. -/
def b64EncodeChars : List Nat → List Char
  | x :: y :: z :: rest =>
      b64Char (x / 4) :: b64Char ((x % 4) * 16 + y / 16) ::
      b64Char ((y % 16) * 4 + z / 64) :: b64Char (z % 64) :: b64EncodeChars rest
  | [x, y] => [b64Char (x / 4), b64Char ((x % 4) * 16 + y / 16), b64Char ((y % 16) * 4), '=']
  | [x] => [b64Char (x / 4), b64Char ((x % 4) * 16), '=', '=']
  | [] => []

def base64Encode (bytes : List Nat) : String :=
  String.mk (b64EncodeChars bytes)

/-! ## String-shape validators from the source's regexes -/

/-- `/^\d{6}$/` of `joinRoom`. -/
def isSixDigitCode (s : String) : Bool :=
  s.length = 6 && s.data.all (·.isDigit)

def isHexLower (c : Char) : Bool :=
  c.isDigit || ('a' ≤ c && c ≤ 'f')

/-- `/^[a-f0-9]{64}$/` of the file-drop controllers. -/
def isDropHashFormat (s : String) : Bool :=
  s.length = 64 && s.data.all isHexLower

def isHexAny (c : Char) : Bool :=
  c.isDigit || ('a' ≤ c && c ≤ 'f') || ('A' ≤ c && c ≤ 'F')

/-- Split a character list on a separator character (the semantics of JS
`String.prototype.split` with a single-character separator). -/
def splitOnChar (sep : Char) : List Char → List (List Char)
  | [] => [[]]
  | c :: rest =>
      let r := splitOnChar sep rest
      if c = sep then [] :: r
      else
        match r with
        | g :: gs => (c :: g) :: gs
        | [] => [[c]]

/-- JS `s.split(sep)` for a one-character separator. -/
def jsSplit (s : String) (sep : Char) : List String :=
  (splitOnChar sep s.data).map String.mk

/-- `/^[0-9a-f]{8}-[0-9a-f]{4}-[0-9a-f]{4}-[0-9a-f]{4}-[0-9a-f]{12}$/i`
of the strict message handler's sender-id check. -/
def isUuidFormat (s : String) : Bool :=
  match splitOnChar '-' s.data with
  | [a, b, c, d, e] =>
      a.length = 8 && b.length = 4 && c.length = 4 && d.length = 4 && e.length = 12 &&
      a.all isHexAny && b.all isHexAny && c.all isHexAny && d.all isHexAny && e.all isHexAny
  | _ => false

/-! ## File-drop one-time delivery (`file-drop.controller.js`) -/

/-- A file-drop session record as stored under `drop:{dropHash}`.
Times are milliseconds; the source stores them as ISO strings and compares
them through luxon `DateTime`, which is order-isomorphic to milliseconds. -/
structure DropSession where
  createdAt : Nat
  expiryTimestamp : Nat
  duration : String
  ttl : Nat
  fileId : Option String
  fileName : Option String
  fileSize : Option Nat
  iv : Option String
  authTag : Option String
  s3Key : Option String
  downloaded : Bool
  uploadedAt : Option Nat
  downloadedAt : Option Nat
deriving DecidableEq, Repr

/-- The metadata store restricted to file-drop sessions, keyed by the full
Redis key `drop:{dropHash}`. -/
abbrev DropStore := String → Option DropSession

/-- Responses of the file-drop HTTP handlers (success body or `{status, error}`). -/
inductive DropRes
  | errRes (status : Nat) (error : String)
  | okValidate (fileId : String) (fileName : Option String) (fileSize : Option Nat)
      (iv authTag : Option String) (expiryTime : Nat) (timeRemaining : Nat)
  | okFile (fileSize : Option Nat) (iv authTag fileName : Option String) (body : List Nat)
deriving DecidableEq, Repr

/-- `true` iff the response is not an error response. -/
def DropRes.isOk : DropRes → Bool
  | .errRes _ _ => false
  | _ => true

/-- `POST /file-drop/validate` (`validateDropCode`).  `now` is the current
time in ms.  The S3-configured guard is outside the claims and taken as
satisfied. -/
def validateDropCode (store : DropStore) (dropHash : String) (now : Nat) : DropRes :=
  if ¬ (isDropHashFormat dropHash = true) then .errRes 400 "INVALID_DROP_HASH_FORMAT"
  else
    match store ("drop:" ++ dropHash) with
    | none => .errRes 404 "DROP_NOT_FOUND"
    | some drop =>
      if now > drop.expiryTimestamp then .errRes 410 "DROP_EXPIRED"
      else if drop.downloaded then .errRes 410 "FILE_ALREADY_DOWNLOADED"
      else
        match drop.fileId with
        | none => .errRes 400 "NO_FILE_UPLOADED_YET"
        | some fid =>
            .okValidate fid drop.fileName drop.fileSize drop.iv drop.authTag
              drop.expiryTimestamp ((drop.expiryTimestamp - now + 999) / 1000)

/-- Result of `GET /file-drop/:fileId` (`downloadFileDrop`): the HTTP
response, the drop store after the handler (including the `res.on('finish')`
/ `res.on('error')` callbacks), and the S3 keys deleted. -/
structure DropDownloadOut where
  res : DropRes
  store : DropStore
  s3Deleted : List String

/-- `GET /file-drop/:fileId` (`downloadFileDrop`).  `objects` is the object
store; `streamOk` tells whether the response stream completed (`'finish'`)
or errored (`'error'`).  On success the session is rewritten with
`downloaded := true` *before* streaming; the `'finish'` callback deletes the
object, the `'error'` callback rewrites the session with
`downloaded := false`. -/
def downloadFileDrop (store : DropStore) (objects : String → Option (List Nat))
    (dropHash fileId : String) (now : Nat) (streamOk : Bool) : DropDownloadOut :=
  if dropHash = "" ∨ fileId = "" then ⟨.errRes 400 "MISSING_PARAMETERS", store, []⟩
  else
    match store ("drop:" ++ dropHash) with
    | none => ⟨.errRes 404 "DROP_NOT_FOUND", store, []⟩
    | some drop =>
      if now > drop.expiryTimestamp then ⟨.errRes 410 "DROP_EXPIRED", store, []⟩
      else if drop.downloaded then ⟨.errRes 410 "FILE_ALREADY_DOWNLOADED", store, []⟩
      else if ¬ (drop.fileId = some fileId) then ⟨.errRes 403 "FILE_ID_MISMATCH", store, []⟩
      else
        match drop.s3Key with
        | none => ⟨.errRes 500 "DOWNLOAD_FAILED", store, []⟩
        | some key =>
          match objects key with
          | none => ⟨.errRes 500 "DOWNLOAD_FAILED", store, []⟩
          | some body =>
            let marked := { drop with downloaded := true, downloadedAt := some now }
            let store1 := setKey store ("drop:" ++ dropHash) (some marked)
            if streamOk then
              ⟨.okFile drop.fileSize drop.iv drop.authTag drop.fileName body, store1, [key]⟩
            else
              ⟨.okFile drop.fileSize drop.iv drop.authTag drop.fileName body,
               setKey store1 ("drop:" ++ dropHash) (some { marked with downloaded := false }),
               []⟩

/-! ## Rooms and connections (shared data model) -/

/-- A WebSocket connection handle; `readyState = 1` is `OPEN` ("live"). -/
structure Conn where
  id : Nat
  readyState : Nat
deriving DecidableEq, Repr

/-- The room record stored under `room:{room_hash}` (see `createRoom`). -/
structure RoomRec where
  room_code : String
  room_salt : String
  is_group : Bool
  expiry_timestamp : Nat
  creator_id : String
  createdAt : Nat
deriving DecidableEq, Repr

/-! ## Room lifecycle manager (`room.controller.js`) -/

/-- Server-side state touched by the room controller.  All four keyed maps
are indexed by the room hash; they stand for the Redis keys `room:{h}`,
`room:{h}:members`, `room:{h}:messages` and for the process-local
`roomClients` registry.  `roomTtl` is the Redis TTL of `room:{h}` in
seconds (`redis.ttl`).  Message-log entries are kept as their serialized
strings, newest first (`LPUSH` order). -/
structure RoomState where
  rooms : String → Option RoomRec
  roomTtl : String → Int
  members : String → Option (List String)
  messages : String → Option (List String)
  clients : String → Option (List Conn)

/-- HTTP responses of the room controller. -/
inductive RoomRes
  | created (room_hash room_salt : String) (expiry : Nat)
  | joined (room_hash room_code room_salt : String) (expiry_timestamp createdAt : Nat)
  | msgsPage (messages : List String) (page limit total : Nat) (hasMore : Bool)
  | burned
  | errRes (status : Nat) (error : String)
deriving DecidableEq, Repr

/-- Outcome of a room-controller request: response, state after, the room
hashes passed to `cleanupRoomFiles`, and the `room_burnt` broadcasts sent
(connection, event type). -/
structure RoomOut where
  res : RoomRes
  st : RoomState
  cleanupFor : List String
  broadcasts : List (Conn × String)

/-- `POST /room/create` (`createRoom`).  `expiry` is in seconds; `now` in
ms.  In the source `expiry = 0` is caught by the `!expiry` truthiness guard
(`INVALID_REQUEST`), negative values by the second guard; with `Nat` only
the first arises. -/
def createRoom (st : RoomState) (room_hash room_code room_salt : String)
    (expiry : Nat) (is_group : Bool) (creator_id : String) (now : Nat) : RoomOut :=
  if room_hash = "" ∨ room_code = "" ∨ room_salt = "" ∨ expiry = 0 ∨ creator_id = "" then
    ⟨.errRes 400 "INVALID_REQUEST", st, [], []⟩
  else
    match st.rooms room_hash with
    | some _ => ⟨.errRes 409 "ROOM_ALREADY_EXISTS", st, [], []⟩
    | none =>
      let payload : RoomRec :=
        { room_code, room_salt, is_group, expiry_timestamp := now + expiry * 1000,
          creator_id, createdAt := now }
      ⟨.created room_hash room_salt expiry,
        { st with rooms := setKey st.rooms room_hash (some payload),
                  roomTtl := setVal st.roomTtl room_hash (expiry : Int) }, [], []⟩

/-- `POST /room/join` (`joinRoom`).  `hashFn` is the external
`crypto.createHash("sha256")` capability producing the hex digest of the
code.  The not-found and expired paths call `cleanupRoomFiles` first. -/
def joinRoom (hashFn : String → String) (st : RoomState) (code : String) : RoomOut :=
  if ¬ (isSixDigitCode code = true) then ⟨.errRes 400 "INVALID_CODE_FORMAT", st, [], []⟩
  else
    let roomHash := hashFn code
    match st.rooms roomHash with
    | none => ⟨.errRes 404 "ROOM_NOT_FOUND", st, [roomHash], []⟩
    | some metadata =>
      if st.roomTtl roomHash ≤ 0 then ⟨.errRes 410 "ROOM_EXPIRED", st, [roomHash], []⟩
      else
        ⟨.joined roomHash metadata.room_code metadata.room_salt
            metadata.expiry_timestamp metadata.createdAt, st, [], []⟩

/-- Redis `LRANGE` with its index semantics: negative indices count from the
end, the start is clamped to 0, and an inverted range is empty. -/
def redisLrange {α : Type} (l : List α) (start stop : Int) : List α :=
  let n : Int := l.length
  let s0 := if start < 0 then n + start else start
  let e := if stop < 0 then n + stop else stop
  let s := if s0 < 0 then 0 else s0
  if e < s then [] else (l.drop s.toNat).take (e - s + 1).toNat

/-- `POST /room/messages` (`getRoomMessages`).  Reads the page
`[page*limit, page*limit+limit-1]` of the newest-first list and reverses it;
`hasMore` compares the total length with `(page+1)*limit`. -/
def getRoomMessages (st : RoomState) (room_hash : String) (page limit : Nat) : RoomOut :=
  if room_hash = "" then ⟨.errRes 400 "INVALID_REQUEST", st, [], []⟩
  else
    match st.rooms room_hash with
    | none => ⟨.errRes 404 "ROOM_NOT_FOUND", st, [room_hash], []⟩
    | some _ =>
      let msgs := (st.messages room_hash).getD []
      let total := msgs.length
      let start : Int := (page : Int) * (limit : Int)
      let stop : Int := start + (limit : Int) - 1
      ⟨.msgsPage ((redisLrange msgs start stop).reverse) page limit total
          (decide (total > (page + 1) * limit)), st, [], []⟩

/-- `POST /room/burn` (`burnRoom`).  After the creator check it deletes the
room, members and messages keys, triggers `cleanupRoomFiles`, sends
`room_burnt` to every registered connection with `readyState === 1`, and
deletes the room's `roomClients` entry. -/
def burnRoom (st : RoomState) (room_hash creator_id : String) : RoomOut :=
  if room_hash = "" ∨ creator_id = "" then ⟨.errRes 400 "INVALID_REQUEST", st, [], []⟩
  else
    match st.rooms room_hash with
    | none => ⟨.errRes 404 "ROOM_NOT_FOUND", st, [], []⟩
    | some roomData =>
      if ¬ (roomData.creator_id = creator_id) then ⟨.errRes 403 "NOT_CREATOR", st, [], []⟩
      else
        let st1 : RoomState :=
          { st with rooms := setKey st.rooms room_hash none,
                    members := setKey st.members room_hash none,
                    messages := setKey st.messages room_hash none }
        match st1.clients room_hash with
        | some cs =>
            ⟨.burned, { st1 with clients := setKey st1.clients room_hash none },
              [room_hash],
              (cs.filter (fun c => c.readyState == 1)).map (fun c => (c, "room_burnt"))⟩
        | none => ⟨.burned, st1, [room_hash], []⟩

/-! ## Message relay pipeline (`message.controller.js`)

The repository carries two variants of `handleMessage`: a strict one
(member-cap enforcement with rollback, sender-id UUID check, broadcasts that
exclude the sender) and a rewritten fast-path one (room cache,
fire-and-forget member add with *no* cap check, broadcasts to every live
client in the room including the sender).  Both are embedded below; the
`Fast` definitions model the cache-carrying variant. -/

/-- One stored message-log entry (`room:{h}:messages`), chat or file kind. -/
inductive StoredMsg
  | chat (msgId ciphertext iv authTag hmac senderId : String) (createdAt : Nat)
  | fileMsg (msgId ty : String) (imageId fileId fileName : Option String)
      (senderId : String) (createdAt : Nat)
deriving DecidableEq, Repr

/-- A broadcast frame sent to a room's connections. -/
inductive Payload
  | chat (roomHash msgId ciphertext iv authTag hmac senderId : String)
  | fileMsg (ty roomHash : String) (imageId fileId fileName : Option String)
      (senderId : String)
deriving DecidableEq, Repr

/-- Relay-side server state: room records with their Redis TTLs, the
membership sets and message logs with the TTLs mirrored onto them, the
process-local `roomClients` registry, and (fast variant only) the in-process
room cache mapping a hash to `(roomData, expiresAt)`. -/
structure RelayState where
  rooms : String → Option RoomRec
  roomTtl : String → Int
  members : String → List String
  membersTtl : String → Int
  messages : String → List StoredMsg
  messagesTtl : String → Int
  clients : String → Option (List Conn)
  cache : String → Option (RoomRec × Nat)

/-- Redis `SADD` on a set modelled as a duplicate-free list. -/
def sadd (s : List String) (x : String) : List String :=
  if x ∈ s then s else x :: s

/-- Redis `SREM`. -/
def srem (s : List String) (x : String) : List String :=
  s.filter (· ≠ x)

/-- `roomClients.get(h).add(ws)` preceded by `if (!roomClients.has(h)) set(h, new Set())`. -/
def addClient (cl : String → Option (List Conn)) (h : String) (ws : Conn) :
    String → Option (List Conn) :=
  match cl h with
  | none => setKey cl h (some [ws])
  | some l => if ws ∈ l then cl else setKey cl h (some (l ++ [ws]))

/-- The acknowledgement sent back to the sending socket. -/
inductive WsAck
  | ok (msgId : Option String)
  | fail (error : String)
deriving DecidableEq, Repr

/-- Result of one `handleMessage` dispatch: the ack to the sender, the
broadcast frames sent to other (or, in the fast variant, all) connections in
order, and the state after all effects (fire-and-forget blocks included). -/
structure WsOut where
  ack : WsAck
  broadcasts : List (Conn × Payload)
  st : RelayState

/-- An opaque-encrypted chat message as destructured by the handler.  A
missing JSON field and the empty string are indistinguishable to every
truthiness guard of the source, so fields are plain strings. -/
structure ChatMsg where
  roomHash : String
  ciphertext : String
  iv : String
  authTag : String
  hmac : String
  senderId : String
deriving DecidableEq, Repr

/-- An `image`/`file` relay message. -/
structure FileMsg where
  roomHash : String
  ty : String
  imageId : Option String
  fileId : Option String
  fileName : Option String
  senderId : String
deriving DecidableEq, Repr

/-- JS `a || b` on two optional string fields. -/
def jsOr (a b : Option String) : Option String :=
  match a with
  | some s => if s = "" then b else some s
  | none => b

/-- JS truthiness of an optional string field. -/
def truthy : Option String → Bool
  | some s => s != ""
  | none => false

/-- Required-fields guard of the chat branch (`!roomHash || ... || !senderId`). -/
def chatFieldsPresent (m : ChatMsg) : Prop :=
  m.roomHash ≠ "" ∧ m.ciphertext ≠ "" ∧ m.iv ≠ "" ∧ m.authTag ≠ "" ∧
    m.hmac ≠ "" ∧ m.senderId ≠ ""

instance (m : ChatMsg) : Decidable (chatFieldsPresent m) := by
  unfold chatFieldsPresent; infer_instance

/-- The three cryptographic-parameter checks shared by both handler
variants: decoded `iv` is 12 bytes, decoded `auth_tag` is 16 bytes, decoded
`ciphertext` is non-empty.  (`base64Decode(hmac)` never throws on a string.) -/
def chatCryptoOk (m : ChatMsg) : Prop :=
  (base64Decode m.iv).length = 12 ∧ (base64Decode m.authTag).length = 16 ∧
    base64Decode m.ciphertext ≠ []

instance (m : ChatMsg) : Decidable (chatCryptoOk m) := by
  unfold chatCryptoOk; infer_instance

/-- Strict-variant `handleMessage`, default (opaque-encrypted chat) branch.
`msgId` is the freshly generated `crypto.randomUUID()`. -/
def handleMessageChat (st : RelayState) (ws : Conn) (m : ChatMsg) (msgId : String)
    (now : Nat) : WsOut :=
  if ¬ chatFieldsPresent m then ⟨.fail "INVALID_PAYLOAD", [], st⟩
  else if ¬ (chatCryptoOk m ∧ isUuidFormat m.senderId = true) then
    ⟨.fail "INVALID_CRYPTO_PARAMETERS", [], st⟩
  else
    match st.rooms m.roomHash with
    | none => ⟨.fail "ROOM_INVALID", [], st⟩
    | some roomData =>
      let members0 := st.members m.roomHash
      let isNewMember := ¬ (m.senderId ∈ members0)
      let members1 := sadd members0 m.senderId
      let maxMembers : Nat := if roomData.is_group then 20 else 2
      if members1.length > maxMembers then
        ⟨.fail "ROOM_FULL", [],
          { st with members := setVal st.members m.roomHash (srem members1 m.senderId) }⟩
      else
        let st1 : RelayState :=
          { st with
            members := setVal st.members m.roomHash members1,
            membersTtl :=
              if isNewMember ∧ st.roomTtl m.roomHash > 0 then
                setVal st.membersTtl m.roomHash (st.roomTtl m.roomHash)
              else st.membersTtl }
        let st2 : RelayState := { st1 with clients := addClient st1.clients m.roomHash ws }
        let entry := StoredMsg.chat msgId m.ciphertext m.iv m.authTag m.hmac m.senderId now
        let st3 : RelayState :=
          { st2 with
            messages := setVal st2.messages m.roomHash (entry :: st2.messages m.roomHash),
            messagesTtl :=
              if st2.roomTtl m.roomHash > 0 then
                setVal st2.messagesTtl m.roomHash (st2.roomTtl m.roomHash)
              else st2.messagesTtl }
        let payload :=
          Payload.chat m.roomHash msgId m.ciphertext m.iv m.authTag m.hmac m.senderId
        let recipients :=
          ((st3.clients m.roomHash).getD []).filter fun c => c.readyState == 1 && c != ws
        ⟨.ok (some msgId), recipients.map (fun c => (c, payload)), st3⟩

/-- Strict-variant `handleMessage`, `image`/`file` branch. -/
def handleMessageFile (st : RelayState) (ws : Conn) (m : FileMsg) (msgId : String)
    (now : Nat) : WsOut :=
  if ¬ (m.roomHash ≠ "" ∧ truthy (jsOr m.imageId m.fileId) = true ∧ m.senderId ≠ "") then
    ⟨.fail "INVALID_PAYLOAD", [], st⟩
  else
    match st.rooms m.roomHash with
    | none => ⟨.fail "ROOM_INVALID", [], st⟩
    | some _ =>
      let st1 : RelayState := { st with clients := addClient st.clients m.roomHash ws }
      let payload := Payload.fileMsg m.ty m.roomHash m.imageId m.fileId m.fileName m.senderId
      let recipients :=
        ((st1.clients m.roomHash).getD []).filter fun c => c.readyState == 1 && c != ws
      let entry := StoredMsg.fileMsg msgId m.ty m.imageId m.fileId m.fileName m.senderId now
      let st2 : RelayState :=
        { st1 with
          messages := setVal st1.messages m.roomHash (entry :: st1.messages m.roomHash),
          messagesTtl :=
            if st1.roomTtl m.roomHash > 0 then
              setVal st1.messagesTtl m.roomHash (st1.roomTtl m.roomHash)
            else st1.messagesTtl }
      ⟨.ok (some msgId), recipients.map (fun c => (c, payload)), st2⟩

/-- `ROOM_CACHE_TTL` of the fast variant, in ms. -/
def roomCacheTtlMs : Nat := 5000

/-- `getCachedRoom`: a cache hit requires `expiresAt > Date.now()`. -/
def getCachedRoom (cache : String → Option (RoomRec × Nat)) (roomHash : String)
    (now : Nat) : Option RoomRec :=
  match cache roomHash with
  | some (r, expAt) => if expAt > now then some r else none
  | none => none

/-- Cache-then-store room lookup of the fast variant; the flag records
whether the record came from the cache (no cache write) or from Redis
(followed by `setCachedRoom`). -/
def lookupRoomFast (st : RelayState) (roomHash : String) (now : Nat) :
    Option (RoomRec × Bool) :=
  match getCachedRoom st.cache roomHash now with
  | some r => some (r, true)
  | none => (st.rooms roomHash).map (fun r => (r, false))

/-- Fast-variant `handleMessage`, default (opaque-encrypted chat) branch.
The member add is fire-and-forget and unconditional: there is no cap check
and no `ROOM_FULL` answer; the broadcast goes to every `readyState === 1`
client in the room, the sender included. -/
def handleMessageFastChat (st : RelayState) (ws : Conn) (m : ChatMsg) (msgId : String)
    (now : Nat) : WsOut :=
  if ¬ chatFieldsPresent m then ⟨.fail "INVALID_PAYLOAD", [], st⟩
  else if ¬ chatCryptoOk m then ⟨.fail "INVALID_CRYPTO_PARAMETERS", [], st⟩
  else
    match lookupRoomFast st m.roomHash now with
    | none => ⟨.fail "ROOM_INVALID", [], st⟩
    | some (roomData, fromCache) =>
      let st0 : RelayState :=
        if fromCache then st
        else { st with
               cache := setKey st.cache m.roomHash (some (roomData, now + roomCacheTtlMs)) }
      let members0 := st0.members m.roomHash
      let isNewMember := ¬ (m.senderId ∈ members0)
      let st1 : RelayState :=
        { st0 with
          members := setVal st0.members m.roomHash (sadd members0 m.senderId),
          membersTtl :=
            if isNewMember ∧ st0.roomTtl m.roomHash > 0 then
              setVal st0.membersTtl m.roomHash (st0.roomTtl m.roomHash)
            else st0.membersTtl }
      let st2 : RelayState := { st1 with clients := addClient st1.clients m.roomHash ws }
      let payload :=
        Payload.chat m.roomHash msgId m.ciphertext m.iv m.authTag m.hmac m.senderId
      let recipients :=
        ((st2.clients m.roomHash).getD []).filter fun c => c.readyState == 1
      let entry := StoredMsg.chat msgId m.ciphertext m.iv m.authTag m.hmac m.senderId now
      let st3 : RelayState :=
        { st2 with
          messages := setVal st2.messages m.roomHash (entry :: st2.messages m.roomHash),
          messagesTtl :=
            if st2.roomTtl m.roomHash > 0 then
              setVal st2.messagesTtl m.roomHash (st2.roomTtl m.roomHash)
            else st2.messagesTtl }
      ⟨.ok (some msgId), recipients.map (fun c => (c, payload)), st3⟩

/-- Fast-variant `handleMessage`, `image`/`file` branch.  The ack carries no
`msgId` and the broadcast again includes the sender when live. -/
def handleMessageFastFile (st : RelayState) (ws : Conn) (m : FileMsg) (msgId : String)
    (now : Nat) : WsOut :=
  if ¬ (m.roomHash ≠ "" ∧ truthy (jsOr m.imageId m.fileId) = true ∧ m.senderId ≠ "") then
    ⟨.fail "INVALID_PAYLOAD", [], st⟩
  else
    match lookupRoomFast st m.roomHash now with
    | none => ⟨.fail "ROOM_INVALID", [], st⟩
    | some (roomData, fromCache) =>
      let st0 : RelayState :=
        if fromCache then st
        else { st with
               cache := setKey st.cache m.roomHash (some (roomData, now + roomCacheTtlMs)) }
      let st1 : RelayState := { st0 with clients := addClient st0.clients m.roomHash ws }
      let payload := Payload.fileMsg m.ty m.roomHash m.imageId m.fileId m.fileName m.senderId
      let recipients :=
        ((st1.clients m.roomHash).getD []).filter fun c => c.readyState == 1
      let entry := StoredMsg.fileMsg msgId m.ty m.imageId m.fileId m.fileName m.senderId now
      let st2 : RelayState :=
        { st1 with
          messages := setVal st1.messages m.roomHash (entry :: st1.messages m.roomHash),
          messagesTtl :=
            if st1.roomTtl m.roomHash > 0 then
              setVal st1.messagesTtl m.roomHash (st1.roomTtl m.roomHash)
            else st1.messagesTtl }
      ⟨.ok none, recipients.map (fun c => (c, payload)), st2⟩

/-! Concrete relay fixtures for the C2, C4, C5 and C9 theorems.
`ivOk` decodes to 12 bytes, `tagOk` to 16 bytes, `ctOk` to 1 byte. -/

def ivOk : String := "AAAAAAAAAAAAAAAA"

def tagOk : String := "AAAAAAAAAAAAAAAAAAAAAA"

def ctOk : String := "AA"

def uuidA : String := "11111111-2222-3333-4444-555555555555"

def uuidB : String := "66666666-7777-8888-9999-aaaaaaaaaaaa"

def uuidC : String := "bbbbbbbb-cccc-dddd-eeee-ffffffffffff"

def relayRoomNG : RoomRec :=
  { room_code := "123456", room_salt := "c2FsdA==", is_group := false,
    expiry_timestamp := 9999999, creator_id := "creator-1", createdAt := 0 }

def wsSender : Conn := ⟨10, 1⟩

def wsPeer : Conn := ⟨11, 1⟩

def wsDead : Conn := ⟨12, 0⟩

/-- Relay state with a non-group room `hR`, two members, one live peer and
one dead connection registered, and an empty cache. -/
def mkRelaySt (members0 : List String) : RelayState :=
  { rooms := fun q => if q = "hR" then some relayRoomNG else none,
    roomTtl := fun q => if q = "hR" then 600 else -2,
    members := fun q => if q = "hR" then members0 else [],
    membersTtl := fun _ => -2,
    messages := fun _ => [],
    messagesTtl := fun _ => -2,
    clients := fun q => if q = "hR" then some [wsPeer, wsDead] else none,
    cache := fun _ => none }

/-! ## File object service (`file.controller.js`) -/

/-- File metadata stored under `file:{roomHash}:{fileId}` with TTL mirrored
to the room's remaining TTL. -/
structure FileMeta where
  fileId : String
  fileName : String
  fileSize : Nat
  uploadTimestamp : Nat
  s3Key : String
  iv : String
  authTag : String
deriving DecidableEq, Repr

/-- State touched by the file controller: room records (by hash), file
metadata (by full `file:{room}:{id}` key) and the S3 object store (by object
key). -/
structure FileState where
  rooms : String → Option RoomRec
  files : String → Option FileMeta
  objects : String → Option (List Nat)

/-- File-controller responses: upload success, a streamed download with its
headers (`Content-Length`, `X-File-IV`, `X-File-AuthTag`, `X-File-FileName`)
and body, or an error. -/
inductive FileRes
  | uploaded (fileId : String)
  | fileBody (contentLength : Nat) (iv authTag fileName : String) (body : List Nat)
  | errRes (status : Nat) (error : String)
deriving DecidableEq, Repr

/-- `POST /file/upload` (`uploadImage`).  `pbkdf2Fn` and `verifyHmacFn` are
the external key-derivation and HMAC-verification capabilities; `file` is
`req.file.buffer` when a multipart file is present; `fileName`/`fileSizeParam`
are the optional body fields (`parseInt(fileSize)` of a non-numeric string,
modelled as `none`, and a parsed `0` both fall back to the buffer size via
`||`); `fileId` is the fresh `crypto.randomUUID()`; `now` is ms.  Missing-key
`GetObject`/`PutObject` failures and the S3-configured guard (`s3ok`) follow
the source. -/
def uploadImage (pbkdf2Fn : String → List Nat → String)
    (verifyHmacFn : String → String → String → Bool)
    (s3ok : Bool) (st : FileState) (roomHash hmacv iv authTag : String)
    (fileName : Option String) (fileSizeParam : Option Nat) (file : Option (List Nat))
    (fileId : String) (now : Nat) : FileRes × FileState :=
  if ¬ (s3ok = true) then (.errRes 503 "FILE_STORAGE_NOT_CONFIGURED", st)
  else
    match file with
    | none => (.errRes 400 "MISSING_PARAMETERS", st)
    | some buf =>
      if roomHash = "" ∨ hmacv = "" ∨ iv = "" ∨ authTag = "" then
        (.errRes 400 "MISSING_PARAMETERS", st)
      else
        match st.rooms roomHash with
        | none => (.errRes 404 "ROOM_NOT_FOUND", st)
        | some room =>
          if now > room.expiry_timestamp then (.errRes 410 "ROOM_EXPIRED", st)
          else if room.room_code = "" then (.errRes 500 "ROOM_CODE_MISSING", st)
          else
            let derivedKey := pbkdf2Fn room.room_code (base64Decode room.room_salt)
            let messageData := base64Encode buf ++ iv ++ authTag
            if ¬ (verifyHmacFn derivedKey messageData hmacv = true) then
              (.errRes 403 "INVALID_HMAC", st)
            else
              let s3Key := "rooms/" ++ roomHash ++ "/files/" ++ fileId ++ ".bin"
              let st1 : FileState := { st with objects := setKey st.objects s3Key (some buf) }
              let ttl : Nat := (room.expiry_timestamp - now + 999) / 1000
              if ttl = 0 ∨ ttl > 2147483647 then (.errRes 400 "INVALID_ROOM_EXPIRY", st1)
              else
                let meta : FileMeta :=
                  { fileId,
                    fileName := match fileName with
                      | some s => if s = "" then "file" else s
                      | none => "file",
                    fileSize := match fileSizeParam with
                      | some n => if n = 0 then buf.length else n
                      | none => buf.length,
                    uploadTimestamp := now, s3Key, iv, authTag }
                (.uploaded fileId,
                  { st1 with
                    files := setKey st1.files ("file:" ++ roomHash ++ ":" ++ fileId)
                      (some meta) })

/-- `GET /file/:fileId?roomHash=` (`downloadFile`).  Streams the object and
attaches the stored metadata as response headers.  An S3 `GetObject` throw
for a missing key lands in the outer catch (`DOWNLOAD_FAILED`). -/
def downloadFile (s3ok : Bool) (st : FileState) (roomHash fileId : String) : FileRes :=
  if ¬ (s3ok = true) then .errRes 503 "FILE_STORAGE_NOT_CONFIGURED"
  else if roomHash = "" then .errRes 400 "MISSING_ROOM_HASH"
  else
    match st.rooms roomHash with
    | none => .errRes 404 "ROOM_NOT_FOUND"
    | some _ =>
      match st.files ("file:" ++ roomHash ++ ":" ++ fileId) with
      | none => .errRes 404 "FILE_NOT_FOUND"
      | some metadata =>
        if metadata.s3Key = "" then .errRes 500 "S3_KEY_MISSING"
        else
          match st.objects metadata.s3Key with
          | none => .errRes 500 "DOWNLOAD_FAILED"
          | some body =>
            .fileBody metadata.fileSize metadata.iv metadata.authTag metadata.fileName body

/-! ## Cleanup reconciler, file-drop object-scan sweep
(`cleanupExpiredDrops`, orphan-scan variant) -/

/-- One step of the Redis `SCAN` cursor loop over `drop:{prefix}*`: a batch
of keys, or a thrown scan error (which the source `break`s on, leaving
`redisKeyExists = false`). -/
inductive ScanBatch
  | okKeys (keys : List String)
  | scanErr
deriving DecidableEq, Repr

/-- `redis.get(key)` then `JSON.parse(...).s3Key === s3Key`. -/
def dropKeyMatches (store : DropStore) (target k : String) : Bool :=
  match store k with
  | some d => d.s3Key == some target
  | none => false

/-- The cursor loop of the object-scan sweep: walk the scan batches looking
for a session record whose `s3Key` equals the object key; stop with `false`
on a scan error. -/
def searchDrop (store : DropStore) (target : String) : List ScanBatch → Bool
  | [] => false
  | .scanErr :: _ => false
  | .okKeys keys :: rest =>
      if keys.any (dropKeyMatches store target) then true
      else searchDrop store target rest

/-- The set of S3 keys the object-scan sweep deletes: every `file-drops/`
object (path of at least three segments) for which the Redis search found no
referencing session. -/
def dropSweepObjDeleted (s3Files : List String) (store : DropStore)
    (scanOf : String → List ScanBatch) : List String :=
  s3Files.filter fun key =>
    let pathParts := jsSplit key '/'
    if pathParts.length < 3 ∨ ¬ (pathParts.headD "" = "file-drops") then false
    else ! searchDrop store key (scanOf (pathParts.getD 1 ""))

/-! Concrete file-controller fixtures for the C8 theorems. -/

def roomW8 : RoomRec :=
  { room_code := "123456", room_salt := "AAAA", is_group := false,
    expiry_timestamp := 100000, creator_id := "creator-8", createdAt := 0 }

def stF8 : FileState :=
  { rooms := fun q => if q = "h8" then some roomW8 else none,
    files := fun _ => none, objects := fun _ => none }

/-- A constant-true HMAC verifier (the verification outcome the claims'
successful-upload hypothesis fixes). -/
def vhTrue : String → String → String → Bool := fun _ _ _ => true

def pbConst : String → List Nat → String := fun _ _ => "derived-key"

/-! Concrete fixtures for the C3 cleanup-reconciler theorem. -/

def c3Hash : String := String.mk (List.replicate 64 'b')

def c3Key : String := "file-drops/" ++ String.mk (List.replicate 16 'b') ++ "/fX.bin"

/-- A live (unexpired, not yet downloaded) drop session referencing `c3Key`. -/
def c3Drop : DropSession :=
  { createdAt := 0, expiryTimestamp := 999999999, duration := "24h", ttl := 86400,
    fileId := some "fX", fileName := some "x.bin", fileSize := some 2,
    iv := some "iv", authTag := some "tag", s3Key := some c3Key,
    downloaded := false, uploadedAt := some 5, downloadedAt := none }

def c3Store : DropStore := setKey (fun _ => none) ("drop:" ++ c3Hash) (some c3Drop)

/-! Concrete file-drop fixtures used by the C1 counterexample and witness. -/

def c1Hash : String := String.mk (List.replicate 64 'a')

def c1S3Key : String := "file-drops/" ++ String.mk (List.replicate 16 'a') ++ "/f1.bin"

def c1Drop : DropSession :=
  { createdAt := 0, expiryTimestamp := 1000000, duration := "1h", ttl := 3600,
    fileId := some "f1", fileName := some "a.bin", fileSize := some 3,
    iv := some "ivB64", authTag := some "tagB64", s3Key := some c1S3Key,
    downloaded := false, uploadedAt := some 10, downloadedAt := none }

def c1Store : DropStore := setKey (fun _ => none) ("drop:" ++ c1Hash) (some c1Drop)

def c1Objects : String → Option (List Nat) :=
  fun k => if k = c1S3Key then some [1, 2, 3] else none

/-- A drop session already flagged `downloaded`, for the C1 witness. -/
def c1DoneDrop : DropSession := { c1Drop with downloaded := true, downloadedAt := some 20 }

def c1DoneStore : DropStore := setKey (fun _ => none) ("drop:" ++ c1Hash) (some c1DoneDrop)

/-! Concrete room-controller fixtures for the C6, C7 and C10 witnesses. -/

/-- An empty room-controller state. -/
def emptyRoomState : RoomState :=
  { rooms := fun _ => none, roomTtl := fun _ => 0, members := fun _ => none,
    messages := fun _ => none, clients := fun _ => none }

def roomW : RoomRec :=
  { room_code := "123456", room_salt := "c2FsdA==", is_group := false,
    expiry_timestamp := 3600000, creator_id := "creator-1", createdAt := 0 }

/-- 120 stored (serialized) messages, newest first. -/
def msgs120 : List String := (List.range 120).map toString

def stC7 : RoomState :=
  { rooms := fun q => if q = "h7" then some roomW else none,
    roomTtl := fun q => if q = "h7" then 600 else 0,
    members := fun _ => none,
    messages := fun q => if q = "h7" then some msgs120 else none,
    clients := fun _ => none }

def stC6 : RoomState :=
  { rooms := fun q => if q = "h6" then some roomW else none,
    roomTtl := fun q => if q = "h6" then 600 else 0,
    members := fun q => if q = "h6" then some ["u1", "u2"] else none,
    messages := fun q => if q = "h6" then some ["m1"] else none,
    clients := fun q => if q = "h6" then some [⟨1, 1⟩, ⟨2, 0⟩, ⟨3, 1⟩] else none }

end SecureCore

namespace SecureCore

/-- C6: `burn(room_hash, creator_id)` on an absent room fails 404
`ROOM_NOT_FOUND`; on an existing room with a different stored `creator_id`
it fails 403 `NOT_CREATOR` leaving all state untouched; and exactly when the
supplied `creator_id` equals the stored one it deletes the room, members and
messages keys, triggers `cleanupRoomFiles` for the room, sends `room_burnt`
to every registered connection with `readyState = 1`, and clears the room's
`roomClients` entry. -/
theorem burnRoom_ownership_gate (st : RoomState) (h cid : String)
    (hh : h ≠ "") (hc : cid ≠ "") :
    (st.rooms h = none → burnRoom st h cid = ⟨.errRes 404 "ROOM_NOT_FOUND", st, [], []⟩)
    ∧ (∀ room, st.rooms h = some room → room.creator_id ≠ cid →
        burnRoom st h cid = ⟨.errRes 403 "NOT_CREATOR", st, [], []⟩)
    ∧ (∀ room, st.rooms h = some room → room.creator_id = cid →
        (burnRoom st h cid).res = .burned
        ∧ (burnRoom st h cid).st.rooms h = none
        ∧ (burnRoom st h cid).st.members h = none
        ∧ (burnRoom st h cid).st.messages h = none
        ∧ (burnRoom st h cid).st.clients h = none
        ∧ (burnRoom st h cid).cleanupFor = [h]
        ∧ (burnRoom st h cid).broadcasts =
            (((st.clients h).getD []).filter (fun c => c.readyState == 1)).map
              (fun c => (c, "room_burnt"))) := by
  have hpar : ¬ (h = "" ∨ cid = "") := by simp [hh, hc]
  refine ⟨?_, ?_, ?_⟩
  · intro habs; simp [burnRoom, hpar, habs]
  · intro room hroom hne; simp [burnRoom, hpar, hroom, hne]
  · intro room hroom heq
    cases hcl : st.clients h with
    | none => simp [burnRoom, hpar, hroom, heq, hcl, setKey]
    | some cs => simp [burnRoom, hpar, hroom, heq, hcl, setKey]

/-- Witness for `burnRoom_ownership_gate`: all three branches at concrete
states (absent room, wrong creator, matching creator with one dead and two
live connections). -/
theorem burnRoom_ownership_gate_witness :
    burnRoom stC6 "missing" "creator-1" = ⟨.errRes 404 "ROOM_NOT_FOUND", stC6, [], []⟩
    ∧ burnRoom stC6 "h6" "intruder" = ⟨.errRes 403 "NOT_CREATOR", stC6, [], []⟩
    ∧ (burnRoom stC6 "h6" "creator-1").res = .burned
    ∧ (burnRoom stC6 "h6" "creator-1").st.rooms "h6" = none
    ∧ (burnRoom stC6 "h6" "creator-1").st.members "h6" = none
    ∧ (burnRoom stC6 "h6" "creator-1").st.messages "h6" = none
    ∧ (burnRoom stC6 "h6" "creator-1").st.clients "h6" = none
    ∧ (burnRoom stC6 "h6" "creator-1").cleanupFor = ["h6"]
    ∧ (burnRoom stC6 "h6" "creator-1").broadcasts =
        [(⟨1, 1⟩, "room_burnt"), (⟨3, 1⟩, "room_burnt")] := by
  obtain ⟨h404, -, -⟩ :=
    burnRoom_ownership_gate stC6 "missing" "creator-1" (by decide) (by decide)
  obtain ⟨-, h403, -⟩ :=
    burnRoom_ownership_gate stC6 "h6" "intruder" (by decide) (by decide)
  obtain ⟨-, -, hok⟩ :=
    burnRoom_ownership_gate stC6 "h6" "creator-1" (by decide) (by decide)
  obtain ⟨e1, e2, e3, e4, e5, e6, e7⟩ := hok roomW rfl rfl
  refine ⟨h404 rfl, h403 roomW rfl (by decide), e1, e2, e3, e4, e5, e6, ?_⟩
  rw [e7]; decide

/-- `LRANGE start (start+limit-1)` on non-negative bounds is drop-then-take. -/
theorem redisLrange_nonneg {α : Type} (l : List α) (a limit : Nat) (hl : 1 ≤ limit) :
    redisLrange l (a : Int) ((a : Int) + (limit : Int) - 1) = (l.drop a).take limit := by
  have h1 : (1 : Int) ≤ (limit : Int) := by exact_mod_cast hl
  have h0 : (0 : Int) ≤ (a : Int) := Int.natCast_nonneg a
  simp only [redisLrange]
  rw [if_neg (by omega), if_neg (by omega), if_neg (by omega), if_neg (by omega)]
  have e1 : ((a : Int)).toNat = a := by omega
  have e2 : ((a : Int) + (limit : Int) - 1 - (a : Int) + 1).toNat = limit := by omega
  rw [e1, e2]

/-- C7: on an existing room, `messages(room_hash, page, limit)` (for a
positive `limit`) returns the slice `[page*limit, page*limit+limit-1]` of
the newest-first stored list, reversed to chronological order, with
`has_more` true exactly when the total length exceeds `(page+1)*limit`. -/
theorem getRoomMessages_pagination (st : RoomState) (h : String) (room : RoomRec)
    (page limit : Nat) (hh : h ≠ "") (hroom : st.rooms h = some room) (hl : 1 ≤ limit) :
    getRoomMessages st h page limit =
      ⟨.msgsPage (((((st.messages h).getD []).drop (page * limit)).take limit).reverse)
          page limit ((st.messages h).getD []).length
          (decide (((st.messages h).getD []).length > (page + 1) * limit)), st, [], []⟩ := by
  simp only [getRoomMessages, if_neg hh, hroom]
  rw [show ((page : Int) * (limit : Int)) = ((page * limit : Nat) : Int) by push_cast; ring,
    redisLrange_nonneg _ _ _ hl]

/-- Witness for `getRoomMessages_pagination`: 120 stored messages with
`limit = 50` — page 0 yields 50 items with `has_more = true`, page 2 yields
the remaining 20 with `has_more = false`. -/
theorem getRoomMessages_pagination_witness :
    (getRoomMessages stC7 "h7" 0 50).res = .msgsPage ((msgs120.take 50).reverse) 0 50 120 true
    ∧ (getRoomMessages stC7 "h7" 2 50).res =
        .msgsPage (((msgs120.drop 100).take 50).reverse) 2 50 120 false
    ∧ ((msgs120.take 50).reverse).length = 50
    ∧ (((msgs120.drop 100).take 50).reverse).length = 20 := by
  have h0 := getRoomMessages_pagination stC7 "h7" roomW 0 50 (by decide) rfl (by decide)
  have h2 := getRoomMessages_pagination stC7 "h7" roomW 2 50 (by decide) rfl (by decide)
  refine ⟨?_, ?_, by decide, by decide⟩
  · rw [h0]; decide
  · rw [h2]; decide

/-- C10: `createRoom` persists the plaintext `room_code` inside the stored
room record, and any subsequent successful `join(code)` whose SHA-256 digest
matches the room hash echoes that stored plaintext code back together with
`room_salt`, `expiry_timestamp` and `createdAt`. -/
theorem createJoin_roomCode_roundtrip (hashFn : String → String) (st : RoomState)
    (h mcode salt cid : String) (expiry : Nat) (grp : Bool) (now : Nat)
    (habs : st.rooms h = none) (hh : h ≠ "") (hc : mcode ≠ "") (hs : salt ≠ "")
    (he : expiry ≠ 0) (hcid : cid ≠ "") :
    ((createRoom st h mcode salt expiry grp cid now).st.rooms h).map RoomRec.room_code =
        some mcode
    ∧ ∀ code, isSixDigitCode code = true → hashFn code = h →
        joinRoom hashFn (createRoom st h mcode salt expiry grp cid now).st code =
          ⟨.joined h mcode salt (now + expiry * 1000) now,
            (createRoom st h mcode salt expiry grp cid now).st, [], []⟩ := by
  have hpar : ¬ (h = "" ∨ mcode = "" ∨ salt = "" ∨ expiry = 0 ∨ cid = "") := by
    simp [hh, hc, hs, he, hcid]
  have hcreate :
      (createRoom st h mcode salt expiry grp cid now).st.rooms h =
        some { room_code := mcode, room_salt := salt, is_group := grp,
               expiry_timestamp := now + expiry * 1000, creator_id := cid,
               createdAt := now } := by
    simp [createRoom, hpar, habs, setKey]
  have httl : (createRoom st h mcode salt expiry grp cid now).st.roomTtl h = (expiry : Int) := by
    simp [createRoom, hpar, habs, setVal]
  refine ⟨by rw [hcreate]; rfl, ?_⟩
  intro code hcode hhash
  have hpos : ¬ ((createRoom st h mcode salt expiry grp cid now).st.roomTtl (hashFn code) ≤ 0) := by
    rw [hhash, httl]
    have : (1 : Int) ≤ (expiry : Int) := by exact_mod_cast Nat.one_le_iff_ne_zero.mpr he
    omega
  simp only [joinRoom, hcode, not_true, if_neg, if_false, hhash, hcreate, if_neg hpos]
  simp
  rw [httl]
  exact_mod_cast Nat.pos_of_ne_zero he

/-- Witness for `createJoin_roomCode_roundtrip` at a concrete creation
followed by a join with the matching six-digit code. -/
theorem createJoin_roomCode_roundtrip_witness :
    (((createRoom emptyRoomState "h1" "654321" "c2FsdA==" 60 false "creator-9" 1000).st.rooms
          "h1").map RoomRec.room_code = some "654321")
    ∧ joinRoom (fun _ => "h1")
        (createRoom emptyRoomState "h1" "654321" "c2FsdA==" 60 false "creator-9" 1000).st
        "654321" =
      ⟨.joined "h1" "654321" "c2FsdA==" 61000 1000,
        (createRoom emptyRoomState "h1" "654321" "c2FsdA==" 60 false "creator-9" 1000).st,
        [], []⟩ := by
  obtain ⟨h1, h2⟩ :=
    createJoin_roomCode_roundtrip (fun _ => "h1") emptyRoomState "h1" "654321" "c2FsdA=="
      "creator-9" 60 false 1000 rfl (by decide) (by decide) (by decide) (by decide) (by decide)
  exact ⟨h1, h2 "654321" (by decide) rfl⟩

/-- C1 (amended): once a drop session's `downloaded` flag is true, `validate`
and `download` always fail with a 410 `DROP_EXPIRED`/`FILE_ALREADY_DOWNLOADED`
response, never return the file, and leave the store untouched; a download
whose checks pass rewrites the session with `downloaded := true` before
streaming and, when the stream finishes, leaves it true — but when the
response stream errors, the `res.on('error')` callback rewrites the session
with `downloaded := false`. -/
theorem dropDownloaded_terminal_except_streamError
    (store : DropStore) (objects : String → Option (List Nat))
    (dropHash fileId : String) (now : Nat) (streamOk : Bool) (d : DropSession)
    (hd : store ("drop:" ++ dropHash) = some d) :
    (d.downloaded = true → isDropHashFormat dropHash = true →
      validateDropCode store dropHash now =
        .errRes 410
          (if now > d.expiryTimestamp then "DROP_EXPIRED" else "FILE_ALREADY_DOWNLOADED"))
    ∧ (d.downloaded = true → ¬ (dropHash = "" ∨ fileId = "") →
      downloadFileDrop store objects dropHash fileId now streamOk =
        ⟨.errRes 410
            (if now > d.expiryTimestamp then "DROP_EXPIRED" else "FILE_ALREADY_DOWNLOADED"),
          store, []⟩)
    ∧ ((downloadFileDrop store objects dropHash fileId now true).res.isOk = true →
      (downloadFileDrop store objects dropHash fileId now true).store ("drop:" ++ dropHash) =
        some { d with downloaded := true, downloadedAt := some now })
    ∧ ((downloadFileDrop store objects dropHash fileId now false).res.isOk = true →
      (downloadFileDrop store objects dropHash fileId now false).store ("drop:" ++ dropHash) =
        some { d with downloaded := false, downloadedAt := some now }) := by
  refine ⟨?_, ?_, ?_, ?_⟩
  · intro hdl hfmt
    by_cases hexp : now > d.expiryTimestamp <;>
      simp [validateDropCode, hfmt, hd, hexp, hdl]
  · intro hdl hpar
    by_cases hexp : now > d.expiryTimestamp <;>
      simp [downloadFileDrop, hpar, hd, hexp, hdl]
  · intro hok
    simp only [downloadFileDrop, hd] at hok ⊢
    by_cases h1 : dropHash = "" ∨ fileId = ""
    · simp [h1, DropRes.isOk] at hok
    · simp only [if_neg h1] at hok ⊢
      by_cases h2 : now > d.expiryTimestamp
      · simp [h2, DropRes.isOk] at hok
      · simp only [if_neg h2] at hok ⊢
        by_cases h3 : d.downloaded = true
        · simp [h3, DropRes.isOk] at hok
        · simp only [Bool.not_eq_true] at h3
          simp only [h3, Bool.false_eq_true, if_false] at hok ⊢
          by_cases h4 : d.fileId = some fileId
          · simp only [h4, not_true, if_neg, if_false] at hok ⊢
            cases hs3 : d.s3Key with
            | none => simp [hs3, DropRes.isOk] at hok
            | some key =>
              simp only [hs3] at hok ⊢
              cases hobj : objects key with
              | none => simp [hobj, DropRes.isOk] at hok
              | some body => simp [hobj, setKey]
          · simp [h4, DropRes.isOk] at hok
  · intro hok
    simp only [downloadFileDrop, hd] at hok ⊢
    by_cases h1 : dropHash = "" ∨ fileId = ""
    · simp [h1, DropRes.isOk] at hok
    · simp only [if_neg h1] at hok ⊢
      by_cases h2 : now > d.expiryTimestamp
      · simp [h2, DropRes.isOk] at hok
      · simp only [if_neg h2] at hok ⊢
        by_cases h3 : d.downloaded = true
        · simp [h3, DropRes.isOk] at hok
        · simp only [Bool.not_eq_true] at h3
          simp only [h3, Bool.false_eq_true, if_false] at hok ⊢
          by_cases h4 : d.fileId = some fileId
          · simp only [h4, not_true, if_neg, if_false] at hok ⊢
            cases hs3 : d.s3Key with
            | none => simp [hs3, DropRes.isOk] at hok
            | some key =>
              simp only [hs3] at hok ⊢
              cases hobj : objects key with
              | none => simp [hobj, DropRes.isOk] at hok
              | some body => simp [hobj, setKey]
          · simp [h4, DropRes.isOk] at hok

/-- Witness for `dropDownloaded_terminal_except_streamError` at a concrete
already-downloaded session. -/
theorem dropDownloaded_terminal_witness :
    validateDropCode c1DoneStore c1Hash 5 = .errRes 410 "FILE_ALREADY_DOWNLOADED"
    ∧ downloadFileDrop c1DoneStore c1Objects c1Hash "f1" 5 true =
        ⟨.errRes 410 "FILE_ALREADY_DOWNLOADED", c1DoneStore, []⟩ := by
  obtain ⟨h1, h2, -, -⟩ :=
    dropDownloaded_terminal_except_streamError c1DoneStore c1Objects c1Hash "f1" 5 true
      c1DoneDrop (by decide)
  have e1 := h1 (by decide) (by decide)
  have e2 := h2 (by decide) (by decide)
  rw [if_neg (by decide : ¬ ((5 : Nat) > c1DoneDrop.expiryTimestamp))] at e1 e2
  exact ⟨e1, e2⟩

/-- C9: the strict message handler rejects any opaque-encrypted chat
message whose `sender_id` does not match the 8-4-4-4-12 hex UUID pattern
with `INVALID_CRYPTO_PARAMETERS`, even when `iv`, `auth_tag`, `ciphertext`
and `hmac` are all well-formed, and neither broadcasts nor persists it. -/
theorem strictChat_senderId_uuid_gate (st : RelayState) (ws : Conn) (m : ChatMsg)
    (msgId : String) (now : Nat) (hf : chatFieldsPresent m) (_hcr : chatCryptoOk m)
    (hu : isUuidFormat m.senderId = false) :
    handleMessageChat st ws m msgId now = ⟨.fail "INVALID_CRYPTO_PARAMETERS", [], st⟩ := by
  have hng : ¬ (chatCryptoOk m ∧ isUuidFormat m.senderId = true) := by simp [hu]
  simp [handleMessageChat, hf, hng]

/-- Witness for `strictChat_senderId_uuid_gate`: well-formed crypto fields,
`sender_id = "alice"`. -/
theorem strictChat_senderId_uuid_gate_witness :
    handleMessageChat (mkRelaySt [uuidA, uuidB]) wsSender
        ⟨"hR", ctOk, ivOk, tagOk, "AA", "alice"⟩ "m9" 0 =
      ⟨.fail "INVALID_CRYPTO_PARAMETERS", [], mkRelaySt [uuidA, uuidB]⟩ :=
  strictChat_senderId_uuid_gate (mkRelaySt [uuidA, uuidB]) wsSender
    ⟨"hR", ctOk, ivOk, tagOk, "AA", "alice"⟩ "m9" 0 (by decide) (by decide) (by decide)

/-- C5 (amended): with all required fields present, the fast handler fails
`INVALID_CRYPTO_PARAMETERS` exactly when decoded `iv` is not 12 bytes,
decoded `auth_tag` is not 16 bytes, or decoded `ciphertext` is empty; the
strict handler additionally requires `sender_id` to match the UUID pattern.
Either rejection happens before any store access, broadcasting or
persistence (the state is returned untouched). -/
theorem chatCrypto_param_gate (stS stF : RelayState) (ws : Conn) (mS mF : ChatMsg)
    (msgId : String) (now : Nat) (hfS : chatFieldsPresent mS) (hfF : chatFieldsPresent mF) :
    ((handleMessageFastChat stF ws mF msgId now).ack = .fail "INVALID_CRYPTO_PARAMETERS"
        ↔ ¬ chatCryptoOk mF)
    ∧ (¬ chatCryptoOk mF →
        handleMessageFastChat stF ws mF msgId now =
          ⟨.fail "INVALID_CRYPTO_PARAMETERS", [], stF⟩)
    ∧ ((handleMessageChat stS ws mS msgId now).ack = .fail "INVALID_CRYPTO_PARAMETERS"
        ↔ ¬ (chatCryptoOk mS ∧ isUuidFormat mS.senderId = true))
    ∧ (¬ (chatCryptoOk mS ∧ isUuidFormat mS.senderId = true) →
        handleMessageChat stS ws mS msgId now =
          ⟨.fail "INVALID_CRYPTO_PARAMETERS", [], stS⟩) := by
  have fastRej : ∀ _h : ¬ chatCryptoOk mF,
      handleMessageFastChat stF ws mF msgId now =
        ⟨.fail "INVALID_CRYPTO_PARAMETERS", [], stF⟩ := fun h => by
    simp [handleMessageFastChat, hfF, h]
  have strictRej : ∀ _h : ¬ (chatCryptoOk mS ∧ isUuidFormat mS.senderId = true),
      handleMessageChat stS ws mS msgId now =
        ⟨.fail "INVALID_CRYPTO_PARAMETERS", [], stS⟩ := fun h => by
    simp [handleMessageChat, hfS, h]
  refine ⟨⟨?_, fun h => by rw [fastRej h]⟩, fastRej, ⟨?_, fun h => by rw [strictRej h]⟩,
    strictRej⟩
  · intro hack
    by_contra hcr
    cases hl : lookupRoomFast stF mF.roomHash now with
    | none => simp [handleMessageFastChat, hfF, hcr, hl] at hack
    | some rb =>
      obtain ⟨roomData, fromCache⟩ := rb
      simp [handleMessageFastChat, hfF, hcr, hl] at hack
  · intro hack
    by_contra hcr
    cases hr : stS.rooms mS.roomHash with
    | none => simp [handleMessageChat, hfS, hcr, hr] at hack
    | some roomData =>
      simp only [handleMessageChat, if_neg (not_not_intro hfS), if_neg (not_not_intro hcr),
        hr] at hack
      split at hack <;> split at hack <;> simp_all

/-- Witness for `chatCrypto_param_gate`: the fast handler rejects a 2-byte
`iv` and does not reject a well-formed message. -/
theorem chatCrypto_param_gate_witness :
    handleMessageFastChat (mkRelaySt [uuidA]) wsSender ⟨"hR", ctOk, "AAA", tagOk, "AA", uuidB⟩
        "m5" 0 = ⟨.fail "INVALID_CRYPTO_PARAMETERS", [], mkRelaySt [uuidA]⟩
    ∧ ¬ ((handleMessageFastChat (mkRelaySt [uuidA]) wsSender
          ⟨"hR", ctOk, ivOk, tagOk, "AA", uuidB⟩ "m5" 0).ack =
        .fail "INVALID_CRYPTO_PARAMETERS") := by
  obtain ⟨hIffBad, hRejBad, -, -⟩ :=
    chatCrypto_param_gate (mkRelaySt [uuidA]) (mkRelaySt [uuidA]) wsSender
      ⟨"hR", ctOk, "AAA", tagOk, "AA", uuidB⟩ ⟨"hR", ctOk, "AAA", tagOk, "AA", uuidB⟩
      "m5" 0 (by decide) (by decide)
  obtain ⟨hIffGood, -, -, -⟩ :=
    chatCrypto_param_gate (mkRelaySt [uuidA]) (mkRelaySt [uuidA]) wsSender
      ⟨"hR", ctOk, ivOk, tagOk, "AA", uuidB⟩ ⟨"hR", ctOk, ivOk, tagOk, "AA", uuidB⟩
      "m5" 0 (by decide) (by decide)
  exact ⟨hRejBad (by decide), fun h => (hIffGood.mp h) (by decide)⟩

/-- C5 counterexample: the strict handler rejects with
`INVALID_CRYPTO_PARAMETERS` a chat message whose `iv` decodes to 12 bytes,
`auth_tag` to 16 bytes and `ciphertext` to a non-empty byte sequence — the
three checks the claim says are the exact rejection condition — because its
`sender_id` (`"not-a-uuid"`) fails the additional UUID-shape check. -/
theorem chatCrypto_param_gate_cex :
    (base64Decode ivOk).length = 12
    ∧ (base64Decode tagOk).length = 16
    ∧ base64Decode ctOk ≠ []
    ∧ (handleMessageChat (mkRelaySt [uuidA]) wsSender
        ⟨"hR", ctOk, ivOk, tagOk, "AA", "not-a-uuid"⟩ "m5" 0).ack =
      .fail "INVALID_CRYPTO_PARAMETERS" := by
  decide

/-- C2 (amended): in the strict handler variant the sender is `SADD`ed to
the membership set and, when the post-insertion cardinality exceeds the cap
(2 for non-group rooms, 20 for group rooms), the insertion is rolled back
with `SREM` and the message fails `ROOM_FULL` with nothing broadcast or
persisted; under the cap the message is accepted and the member kept.  In
the fast-path variant the member add is fire-and-forget with no cap check:
the message is accepted, broadcast and persisted regardless of the set's
size, and `ROOM_FULL` is never returned. -/
theorem membershipCap_variants (stS stF : RelayState) (ws : Conn) (m : ChatMsg)
    (msgId : String) (now : Nat) (room : RoomRec)
    (hf : chatFieldsPresent m) (hcr : chatCryptoOk m)
    (huu : isUuidFormat m.senderId = true) :
    (stS.rooms m.roomHash = some room →
      (sadd (stS.members m.roomHash) m.senderId).length > (if room.is_group then 20 else 2) →
      handleMessageChat stS ws m msgId now =
        ⟨.fail "ROOM_FULL", [],
          { stS with
            members := setVal stS.members m.roomHash
              (srem (sadd (stS.members m.roomHash) m.senderId) m.senderId) }⟩)
    ∧ (stS.rooms m.roomHash = some room →
      ¬ ((sadd (stS.members m.roomHash) m.senderId).length >
          (if room.is_group then 20 else 2)) →
      (handleMessageChat stS ws m msgId now).ack = .ok (some msgId)
      ∧ (handleMessageChat stS ws m msgId now).st.members m.roomHash =
          sadd (stS.members m.roomHash) m.senderId)
    ∧ (stF.cache m.roomHash = none → stF.rooms m.roomHash = some room →
      (handleMessageFastChat stF ws m msgId now).ack = .ok (some msgId)
      ∧ (handleMessageFastChat stF ws m msgId now).st.members m.roomHash =
          sadd (stF.members m.roomHash) m.senderId
      ∧ (handleMessageFastChat stF ws m msgId now).st.messages m.roomHash =
          StoredMsg.chat msgId m.ciphertext m.iv m.authTag m.hmac m.senderId now
            :: stF.messages m.roomHash) := by
  have hok : ¬ ¬ (chatCryptoOk m ∧ isUuidFormat m.senderId = true) :=
    not_not_intro ⟨hcr, huu⟩
  refine ⟨?_, ?_, ?_⟩
  · intro hroom hcap
    simp [handleMessageChat, hf, hok, hroom, hcap]
  · intro hroom hcap
    constructor <;> simp [handleMessageChat, hf, hok, hroom, hcap, setVal]
  · intro hcache hroom
    have hl : lookupRoomFast stF m.roomHash now = some (room, false) := by
      simp [lookupRoomFast, getCachedRoom, hcache, hroom]
    refine ⟨?_, ?_, ?_⟩ <;> simp [handleMessageFastChat, hf, hcr, hl, setVal]

/-- Witness for `membershipCap_variants`: a third distinct sender against a
non-group room holding two members is rolled back with `ROOM_FULL` by the
strict handler, while the same state under the fast handler accepts and
keeps the third member. -/
theorem membershipCap_variants_witness :
    handleMessageChat (mkRelaySt [uuidA, uuidB]) wsSender ⟨"hR", ctOk, ivOk, tagOk, "AA", uuidC⟩
        "m2" 0 =
      ⟨.fail "ROOM_FULL", [],
        { mkRelaySt [uuidA, uuidB] with
          members := setVal (mkRelaySt [uuidA, uuidB]).members "hR"
            (srem (sadd ((mkRelaySt [uuidA, uuidB]).members "hR") uuidC) uuidC) }⟩
    ∧ srem (sadd ((mkRelaySt [uuidA, uuidB]).members "hR") uuidC) uuidC = [uuidA, uuidB]
    ∧ (handleMessageFastChat (mkRelaySt [uuidA, uuidB]) wsSender
          ⟨"hR", ctOk, ivOk, tagOk, "AA", uuidC⟩ "m2" 0).ack = .ok (some "m2")
    ∧ (handleMessageFastChat (mkRelaySt [uuidA, uuidB]) wsSender
          ⟨"hR", ctOk, ivOk, tagOk, "AA", uuidC⟩ "m2" 0).st.members "hR" =
        [uuidC, uuidA, uuidB] := by
  obtain ⟨hfull, -, hfast⟩ :=
    membershipCap_variants (mkRelaySt [uuidA, uuidB]) (mkRelaySt [uuidA, uuidB]) wsSender
      ⟨"hR", ctOk, ivOk, tagOk, "AA", uuidC⟩ "m2" 0 relayRoomNG
      (by decide) (by decide) (by decide)
  obtain ⟨hack, hmem, -⟩ := hfast rfl rfl
  refine ⟨hfull rfl (by decide), by decide, hack, ?_⟩
  rw [hmem]; decide

/-- C2 counterexample: under sequential execution the fast handler variant
accepts a chat message from a third distinct sender into a non-group room
that already has two distinct members — no `ROOM_FULL`, the member set grows
to three, and the message is both broadcast and persisted. -/
theorem membershipCap_fastVariant_cex :
    (handleMessageFastChat (mkRelaySt ["u1", "u2"]) wsSender
        ⟨"hR", ctOk, ivOk, tagOk, "AA", "u3"⟩ "m1" 0).ack = .ok (some "m1")
    ∧ (handleMessageFastChat (mkRelaySt ["u1", "u2"]) wsSender
        ⟨"hR", ctOk, ivOk, tagOk, "AA", "u3"⟩ "m1" 0).ack ≠ .fail "ROOM_FULL"
    ∧ (handleMessageFastChat (mkRelaySt ["u1", "u2"]) wsSender
        ⟨"hR", ctOk, ivOk, tagOk, "AA", "u3"⟩ "m1" 0).st.members "hR" = ["u3", "u1", "u2"]
    ∧ (handleMessageFastChat (mkRelaySt ["u1", "u2"]) wsSender
        ⟨"hR", ctOk, ivOk, tagOk, "AA", "u3"⟩ "m1" 0).st.messages "hR" =
        [StoredMsg.chat "m1" ctOk ivOk tagOk "AA" "u3" 0]
    ∧ (handleMessageFastChat (mkRelaySt ["u1", "u2"]) wsSender
        ⟨"hR", ctOk, ivOk, tagOk, "AA", "u3"⟩ "m1" 0).broadcasts ≠ [] := by
  decide

/-- C4 (amended): for every accepted chat or file message, the strict
handler variant broadcasts the payload verbatim (same room hash, ciphertext,
iv, auth_tag, hmac, sender_id, plus the fresh `msg_id` for chat) to exactly
the registered connections of the room with `readyState = 1` other than the
sending connection, which receives only the acknowledgement; the fast
handler variant instead broadcasts the same verbatim payload to *every*
registered `readyState = 1` connection, the sender included when live. -/
theorem broadcast_recipients_variants (stS stF : RelayState) (ws : Conn)
    (m : ChatMsg) (fm : FileMsg) (msgId : String) (now : Nat) :
    (chatFieldsPresent m → chatCryptoOk m → isUuidFormat m.senderId = true →
      ∀ room, stS.rooms m.roomHash = some room →
      ¬ ((sadd (stS.members m.roomHash) m.senderId).length >
          (if room.is_group then 20 else 2)) →
      ((handleMessageChat stS ws m msgId now).ack = .ok (some msgId)
       ∧ ∀ c p, (c, p) ∈ (handleMessageChat stS ws m msgId now).broadcasts ↔
          (c ∈ ((addClient stS.clients m.roomHash ws) m.roomHash).getD [] ∧
            c.readyState = 1 ∧ c ≠ ws ∧
            p = Payload.chat m.roomHash msgId m.ciphertext m.iv m.authTag m.hmac m.senderId)))
    ∧ (fm.roomHash ≠ "" → truthy (jsOr fm.imageId fm.fileId) = true → fm.senderId ≠ "" →
      ∀ room, stS.rooms fm.roomHash = some room →
      ((handleMessageFile stS ws fm msgId now).ack = .ok (some msgId)
       ∧ ∀ c p, (c, p) ∈ (handleMessageFile stS ws fm msgId now).broadcasts ↔
          (c ∈ ((addClient stS.clients fm.roomHash ws) fm.roomHash).getD [] ∧
            c.readyState = 1 ∧ c ≠ ws ∧
            p = Payload.fileMsg fm.ty fm.roomHash fm.imageId fm.fileId fm.fileName fm.senderId)))
    ∧ (chatFieldsPresent m → chatCryptoOk m →
      ∀ room b, lookupRoomFast stF m.roomHash now = some (room, b) →
      ((handleMessageFastChat stF ws m msgId now).ack = .ok (some msgId)
       ∧ ∀ c p, (c, p) ∈ (handleMessageFastChat stF ws m msgId now).broadcasts ↔
          (c ∈ ((addClient stF.clients m.roomHash ws) m.roomHash).getD [] ∧
            c.readyState = 1 ∧
            p = Payload.chat m.roomHash msgId m.ciphertext m.iv m.authTag m.hmac m.senderId)))
    ∧ (fm.roomHash ≠ "" → truthy (jsOr fm.imageId fm.fileId) = true → fm.senderId ≠ "" →
      ∀ room b, lookupRoomFast stF fm.roomHash now = some (room, b) →
      ((handleMessageFastFile stF ws fm msgId now).ack = .ok none
       ∧ ∀ c p, (c, p) ∈ (handleMessageFastFile stF ws fm msgId now).broadcasts ↔
          (c ∈ ((addClient stF.clients fm.roomHash ws) fm.roomHash).getD [] ∧
            c.readyState = 1 ∧
            p = Payload.fileMsg fm.ty fm.roomHash fm.imageId fm.fileId fm.fileName
                  fm.senderId))) := by
  refine ⟨?_, ?_, ?_, ?_⟩
  · intro hf hcr huu room hroom hcap
    have hok : ¬ ¬ (chatCryptoOk m ∧ isUuidFormat m.senderId = true) :=
      not_not_intro ⟨hcr, huu⟩
    constructor
    · simp [handleMessageChat, hf, hok, hroom, hcap]
    · intro c p
      simp [handleMessageChat, hf, hok, hroom, hcap, List.mem_filter, and_assoc,
        eq_comm (a := p)]
      aesop
  · intro h1 h2 h3 room hroom
    have hfp : ¬ ¬ (fm.roomHash ≠ "" ∧ truthy (jsOr fm.imageId fm.fileId) = true ∧
        fm.senderId ≠ "") := not_not_intro ⟨h1, h2, h3⟩
    constructor
    · simp [handleMessageFile, hfp, hroom]
    · intro c p
      simp [handleMessageFile, hfp, hroom, List.mem_filter, and_assoc, eq_comm (a := p)]
      aesop
  · intro hf hcr room b hl
    constructor
    · simp [handleMessageFastChat, hf, hcr, hl]
    · intro c p
      cases b <;>
        simp [handleMessageFastChat, hf, hcr, hl, List.mem_filter, and_assoc,
          eq_comm (a := p)] <;>
        aesop
  · intro h1 h2 h3 room b hl
    have hfp : ¬ ¬ (fm.roomHash ≠ "" ∧ truthy (jsOr fm.imageId fm.fileId) = true ∧
        fm.senderId ≠ "") := not_not_intro ⟨h1, h2, h3⟩
    constructor
    · simp [handleMessageFastFile, hfp, hl]
    · intro c p
      cases b <;>
        simp [handleMessageFastFile, hfp, hl, List.mem_filter, and_assoc, eq_comm (a := p)] <;>
        aesop

/-- Witness for `broadcast_recipients_variants`: in the strict variant the
live peer receives the verbatim payload, the dead connection and the sender
do not; the sender gets only the `{success, msg_id}` acknowledgement. -/
theorem broadcast_recipients_variants_witness :
    (handleMessageChat (mkRelaySt [uuidA]) wsSender ⟨"hR", ctOk, ivOk, tagOk, "AA", uuidA⟩
        "m4" 0).ack = .ok (some "m4")
    ∧ (wsPeer, Payload.chat "hR" "m4" ctOk ivOk tagOk "AA" uuidA) ∈
        (handleMessageChat (mkRelaySt [uuidA]) wsSender ⟨"hR", ctOk, ivOk, tagOk, "AA", uuidA⟩
          "m4" 0).broadcasts
    ∧ (wsSender, Payload.chat "hR" "m4" ctOk ivOk tagOk "AA" uuidA) ∉
        (handleMessageChat (mkRelaySt [uuidA]) wsSender ⟨"hR", ctOk, ivOk, tagOk, "AA", uuidA⟩
          "m4" 0).broadcasts
    ∧ (wsDead, Payload.chat "hR" "m4" ctOk ivOk tagOk "AA" uuidA) ∉
        (handleMessageChat (mkRelaySt [uuidA]) wsSender ⟨"hR", ctOk, ivOk, tagOk, "AA", uuidA⟩
          "m4" 0).broadcasts := by
  obtain ⟨hchat, -, -, -⟩ :=
    broadcast_recipients_variants (mkRelaySt [uuidA]) (mkRelaySt [uuidA]) wsSender
      ⟨"hR", ctOk, ivOk, tagOk, "AA", uuidA⟩
      ⟨"hR", "file", none, some "f1", some "n", uuidA⟩ "m4" 0
  obtain ⟨hack, hmem⟩ := hchat (by decide) (by decide) (by decide) relayRoomNG rfl (by decide)
  refine ⟨hack, (hmem wsPeer _).mpr ⟨by decide, by decide, by decide, rfl⟩, ?_, ?_⟩
  · intro hin
    obtain ⟨-, -, hne, -⟩ := (hmem wsSender _).mp hin
    exact hne rfl
  · intro hin
    obtain ⟨-, hstate, -, -⟩ := (hmem wsDead _).mp hin
    exact absurd hstate (by decide)

/-- C4 counterexample: in the fast handler variant the sending connection
itself receives a broadcast copy of its own message (it is a live member of
the room's client set and the fan-out loop does not exclude it), in addition
to its acknowledgement. -/
theorem broadcast_sender_copy_fastVariant_cex :
    (handleMessageFastChat (mkRelaySt [uuidA]) wsSender ⟨"hR", ctOk, ivOk, tagOk, "AA", uuidA⟩
        "m6" 0).ack = .ok (some "m6")
    ∧ (wsSender, Payload.chat "hR" "m6" ctOk ivOk tagOk "AA" uuidA) ∈
        (handleMessageFastChat (mkRelaySt [uuidA]) wsSender
          ⟨"hR", ctOk, ivOk, tagOk, "AA", uuidA⟩ "m6" 0).broadcasts := by
  decide

/-- C8 (amended): for a successful room-file upload whose supplied
`file_name` is non-empty and whose supplied `file_size` parses to a non-zero
number, a subsequent download of the returned `file_id` for the same room
returns exactly the supplied `file_name`, `file_size`, `iv` and `auth_tag`
as the `X-File-FileName`, `Content-Length`, `X-File-IV` and `X-File-AuthTag`
response metadata (a `file_size` of 0 or a non-numeric one falls back to the
uploaded buffer's byte count via `parseInt(fileSize) || req.file.size`). -/
theorem fileMeta_upload_download_roundtrip
    (pb : String → List Nat → String) (vh : String → String → String → Bool)
    (st : FileState) (roomHash hmacv iv authTag nm : String) (sz : Nat)
    (buf : List Nat) (fileId : String) (now : Nat) (room : RoomRec)
    (hroom : st.rooms roomHash = some room)
    (hrh : roomHash ≠ "") (hhm : hmacv ≠ "") (hiv : iv ≠ "") (hat : authTag ≠ "")
    (hexp : ¬ (now > room.expiry_timestamp)) (hcode : room.room_code ≠ "")
    (hver : vh (pb room.room_code (base64Decode room.room_salt))
        (base64Encode buf ++ iv ++ authTag) hmacv = true)
    (httl0 : (room.expiry_timestamp - now + 999) / 1000 ≠ 0)
    (httl1 : ¬ ((room.expiry_timestamp - now + 999) / 1000 > 2147483647))
    (hnm : nm ≠ "") (hsz : sz ≠ 0) :
    (uploadImage pb vh true st roomHash hmacv iv authTag (some nm) (some sz) (some buf)
        fileId now).1 = .uploaded fileId
    ∧ downloadFile true
        (uploadImage pb vh true st roomHash hmacv iv authTag (some nm) (some sz) (some buf)
          fileId now).2 roomHash fileId =
      .fileBody sz iv authTag nm buf := by
  have hpar : ¬ (roomHash = "" ∨ hmacv = "" ∨ iv = "" ∨ authTag = "") := by
    simp [hrh, hhm, hiv, hat]
  have hs3 : ("rooms/" ++ roomHash ++ "/files/" ++ fileId ++ ".bin") ≠ "" := by
    intro h
    have hlen := congrArg String.length h
    rw [String.length_append, String.length_append, String.length_append,
      String.length_append] at hlen
    have h6 : ("rooms/" : String).length = 6 := rfl
    have h0 : ("" : String).length = 0 := rfl
    omega
  have hup :
      uploadImage pb vh true st roomHash hmacv iv authTag (some nm) (some sz) (some buf)
          fileId now =
        (.uploaded fileId,
          { st with
            objects := setKey st.objects
              ("rooms/" ++ roomHash ++ "/files/" ++ fileId ++ ".bin") (some buf),
            files := setKey st.files ("file:" ++ roomHash ++ ":" ++ fileId)
              (some { fileId, fileName := nm, fileSize := sz, uploadTimestamp := now,
                      s3Key := "rooms/" ++ roomHash ++ "/files/" ++ fileId ++ ".bin",
                      iv, authTag }) }) := by
    simp [uploadImage, hpar, hroom, hexp, hcode, hver, httl0, httl1, hnm, hsz]
  rw [hup]
  refine ⟨rfl, ?_⟩
  simp [downloadFile, hrh, hroom, hs3, setKey]

/-- Witness for `fileMeta_upload_download_roundtrip` at a concrete upload
followed by its download. -/
theorem fileMeta_upload_download_roundtrip_witness :
    (uploadImage pbConst vhTrue true stF8 "h8" "hm" "aXY=" "dGFn" (some "doc.txt") (some 7)
        (some [1, 2, 3]) "f8" 0).1 = .uploaded "f8"
    ∧ downloadFile true
        (uploadImage pbConst vhTrue true stF8 "h8" "hm" "aXY=" "dGFn" (some "doc.txt") (some 7)
          (some [1, 2, 3]) "f8" 0).2 "h8" "f8" =
      .fileBody 7 "aXY=" "dGFn" "doc.txt" [1, 2, 3] :=
  fileMeta_upload_download_roundtrip pbConst vhTrue stF8 "h8" "hm" "aXY=" "dGFn" "doc.txt" 7
    [1, 2, 3] "f8" 0 roomW8 rfl (by decide) (by decide) (by decide) (by decide) (by decide)
    (by decide) rfl (by decide) (by decide) (by decide) (by decide)

/-- C8 counterexample: an upload that supplies `file_size = 0` for a 5-byte
ciphertext succeeds, but the download's `Content-Length` is 5, the buffer
size, not the supplied value — `parseInt("0")` is falsy, so
`parseInt(fileSize) || req.file.size` discards the supplied field. -/
theorem fileMeta_roundtrip_cex :
    (uploadImage pbConst vhTrue true stF8 "h8" "hm" "aXY=" "dGFn" (some "doc.txt") (some 0)
        (some [1, 2, 3, 4, 5]) "f9" 0).1 = .uploaded "f9"
    ∧ downloadFile true
        (uploadImage pbConst vhTrue true stF8 "h8" "hm" "aXY=" "dGFn" (some "doc.txt") (some 0)
          (some [1, 2, 3, 4, 5]) "f9" 0).2 "h8" "f9" =
      .fileBody 5 "aXY=" "dGFn" "doc.txt" [1, 2, 3, 4, 5]
    ∧ (5 : Nat) ≠ 0 := by
  decide

/-- C3: evaluation at the failing input.  A `file-drops/` object whose live
(unexpired) session record still exists in the metadata store and references
exactly that object key *is* deleted by the object-scan sweep when the Redis
scan for it throws (`.scanErr`): the `break` leaves `redisKeyExists = false`
and the object is treated as orphaned.  With the same store and a successful
scan the object is kept. -/
theorem dropSweep_scanError_deletes_live_object :
    c3Store ("drop:" ++ c3Hash) = some c3Drop
    ∧ c3Drop.s3Key = some c3Key
    ∧ dropSweepObjDeleted [c3Key] c3Store (fun _ => [.scanErr]) = [c3Key]
    ∧ dropSweepObjDeleted [c3Key] c3Store (fun _ => [.okKeys ["drop:" ++ c3Hash]]) = [] := by
  decide

/-- (Supporting fact for C3, not claim-named.)  When none of the scan
batches errors and some batch contains a key whose stored session references
the object, the cursor search finds it. -/
theorem searchDrop_finds_of_no_error (store : DropStore) (target : String)
    (batches : List ScanBatch) (k : String)
    (hno : ScanBatch.scanErr ∉ batches)
    (hk : ∃ keys, ScanBatch.okKeys keys ∈ batches ∧ k ∈ keys)
    (hm : dropKeyMatches store target k = true) :
    searchDrop store target batches = true := by
  induction batches with
  | nil => simp at hk
  | cons b rest ih =>
    cases b with
    | scanErr => simp at hno
    | okKeys keys =>
      obtain ⟨keys', hmem, hkk⟩ := hk
      simp only [searchDrop]
      by_cases hfound : keys.any (dropKeyMatches store target) = true
      · simp [hfound]
      · have hne : ScanBatch.okKeys keys' ≠ ScanBatch.okKeys keys := by
          intro he
          obtain rfl := ScanBatch.okKeys.inj he
          exact hfound (List.any_eq_true.mpr ⟨k, hkk, hm⟩)
        have hrest : ScanBatch.okKeys keys' ∈ rest := by
          rcases List.mem_cons.mp hmem with he | hr
          · exact absurd he hne
          · exact hr
        have hsr := ih (fun hc => hno (List.mem_cons_of_mem _ hc)) ⟨keys', hrest, hkk⟩
        simp [hfound, hsr]

/-- (Supporting fact for C3, not claim-named.)  An object whose cursor
search succeeds is never deleted by the object-scan sweep. -/
theorem dropSweepObj_scan_success_safety (s3Files : List String) (store : DropStore)
    (scanOf : String → List ScanBatch) (key : String)
    (hfound : searchDrop store key (scanOf ((jsSplit key '/').getD 1 "")) = true) :
    key ∉ dropSweepObjDeleted s3Files store scanOf := by
  intro hmem
  have hcond := (List.mem_filter.mp hmem).2
  simp at hcond
  simp only [List.getD_eq_getElem?_getD] at hfound
  rw [hcond.2] at hfound
  exact absurd hfound (by decide)

/-- C1 counterexample: a download whose response stream errors leaves the
session with `downloaded = false` (the `res.on('error')` callback rewrites
it), and a second download for the same `drop_hash` returns the file again —
the claimed terminal behaviour of the flag does not hold. -/
theorem dropDownloaded_reset_on_streamError_cex :
    (downloadFileDrop c1Store c1Objects c1Hash "f1" 0 false).res =
        .okFile (some 3) (some "ivB64") (some "tagB64") (some "a.bin") [1, 2, 3]
    ∧ ((downloadFileDrop c1Store c1Objects c1Hash "f1" 0 false).store
          ("drop:" ++ c1Hash)).map DropSession.downloaded = some false
    ∧ (downloadFileDrop (downloadFileDrop c1Store c1Objects c1Hash "f1" 0 false).store
          c1Objects c1Hash "f1" 7 true).res =
        .okFile (some 3) (some "ivB64") (some "tagB64") (some "a.bin") [1, 2, 3] := by
  decide

end SecureCore
